import Mathlib

/-!
# Thanos store discovery: reconciliation and rolling restart

A shallow embedding of `main.go` of cloud-thanos-store-discovery.

* Go slices of strings are `List String`.
* A Go `error` is an `Error` record: its message and what the two
  library predicates the program consults (`errors.IsNotFound` of
  pingcap/errors and `k8serrors.IsNotFound` of apimachinery) answer for it.
* The Kubernetes clientset is an `Api σ`: one transition function per client
  call over an arbitrary cluster state `σ`. Every call may change the state, so
  an `Api` stands for an arbitrary behaviour of the cluster, including what
  happens to it while the program sleeps between two polls.
* A `World σ` pairs the cluster state with the log of client calls issued so
  far, oldest first.
* The deadline of `context.WithTimeout` is counted in polling intervals. The
  deadline is set before the first poll and every `time.After(5 * time.Second)`
  starts after a poll, so the sleep that follows the `k`-th poll ends later
  than `5 * k` seconds after the deadline was set: it is taken only while
  `5 * k < wait`, which are `(wait - 1) / 5` sleeps, and `ctx.Done()` wins the
  `select` after that. A wait of 180 seconds sleeps 35 times and polls 36
  times.
-/

namespace ThanosStoreDiscovery

/-! ## Errors -/

/-- A Go `error` value as far as the program looks at it. -/
structure Error where
  /-- the text of `err.Error()` -/
  msg : String
  /-- the answer of `errors.IsNotFound(err)` (pingcap/errors) -/
  textNotFound : Bool
  /-- the answer of `k8serrors.IsNotFound(err)` -/
  statusNotFound : Bool
deriving DecidableEq, Repr

/-- `errors.IsNotFound(err)` of pingcap/errors. -/
def errorsIsNotFound (e : Error) : Bool := e.textNotFound

/-- `k8serrors.IsNotFound(err)`. -/
def k8serrorsIsNotFound (e : Error) : Bool := e.statusNotFound

/-- `errors.Wrap(err, message)`: the message is put in front of the cause's
text; none of the messages this program wraps with changes what the cause is. -/
def errorsWrap (e : Error) (message : String) : Error :=
  { e with msg := message ++ ": " ++ e.msg }

/-- `ctx.Err()` of a context whose deadline has passed. -/
def ctxErr : Error :=
  { msg := "context deadline exceeded", textNotFound := false, statusNotFound := false }

/-! ## Data model -/

/-- One element of the `config` slice type: a group with its `targets`. -/
structure TargetGroup where
  Targets : List String
deriving DecidableEq, Repr

/-- The Go type `config`. -/
abbrev Config := List TargetGroup

/-- `route53.ResourceRecordSet`, with the field the program reads. -/
structure ResourceRecordSet where
  Name : String
deriving DecidableEq, Repr

/-- `corev1.ConfigMap`, with the fields the program sets and reads. -/
structure ConfigMap where
  Name : String
  Namespace : String
  Data : List (String × String)
deriving DecidableEq, Repr

/-- `corev1.PodCondition`; `Status` is a `ConditionStatus`, a Go string. -/
structure PodCondition where
  Type_ : String
  Status : String
deriving DecidableEq, Repr

/-- `corev1.ConditionFalse`. -/
def ConditionFalse : String := "False"

/-- `corev1.Pod`, with its name and `Status.Conditions`. -/
structure Pod where
  Name : String
  Conditions : List PodCondition
deriving DecidableEq, Repr

/-- `appsv1.Deployment`, with the label set its selector is built from. -/
structure Deployment where
  Labels : List (String × String)
deriving DecidableEq, Repr

/-! ## Reconciler -/

/-- The `for i, v := range route53Targets` loop of `checkIfConfigMapUpToDate`,
entered at index `i` with the elements still to visit. -/
def checkIfConfigMapUpToDate.scan (configMapTargets : List String) :
    Nat → List String → Bool
  | _, [] => true
  | i, v :: rest =>
    if some v != configMapTargets[i]? then false
    else checkIfConfigMapUpToDate.scan configMapTargets (i + 1) rest

/-- `checkIfConfigMapUpToDate(configMapTargets, route53Targets)`. -/
def checkIfConfigMapUpToDate (configMapTargets route53Targets : List String) : Bool :=
  if route53Targets.length != configMapTargets.length then false
  else checkIfConfigMapUpToDate.scan configMapTargets 0 route53Targets

/-! ## Target resolver -/

/-- `fmt.Sprintf("%s:10901", record)`. -/
def sprintfPort (record : String) : String := record ++ ":10901"

/-- The loop of `addPortToTargets`, with the slice built so far. -/
def addPortToTargets.loop : List String → List String → List String
  | thanosTargets, [] => thanosTargets
  | thanosTargets, record :: rest =>
    addPortToTargets.loop (thanosTargets ++ [sprintfPort record]) rest

/-- `addPortToTargets(thanosRecords)`. -/
def addPortToTargets (thanosRecords : List String) : List String :=
  addPortToTargets.loop [] thanosRecords

/-- `strings.Contains(s, substr)`, on the characters of the two strings. -/
def stringsContains.go (sub : List Char) : List Char → Bool
  | [] => sub.isEmpty
  | c :: cs => sub.isPrefixOf (c :: cs) || stringsContains.go sub cs

/-- `strings.Contains(s, substr)`. -/
def stringsContains (s substr : String) : Bool :=
  stringsContains.go substr.data s.data

/-- The loop of `getThanosTargets`, with the slice built so far. -/
def getThanosTargets.loop : List String → List ResourceRecordSet → List String
  | thanosTargets, [] => thanosTargets
  | thanosTargets, record :: rest =>
    if stringsContains record.Name "-grpc." then
      getThanosTargets.loop (thanosTargets ++ [record.Name]) rest
    else getThanosTargets.loop thanosTargets rest

/-- `getThanosTargets(recordSets)`. -/
def getThanosTargets (recordSets : List ResourceRecordSet) : List String :=
  getThanosTargets.loop [] recordSets

/-! ## The cluster as the program sees it -/

/-- A call issued on the clientset, with the arguments that identify it. -/
inductive Call where
  | configMapsGet (ns name : String)
  | configMapsCreate (ns : String) (configMap : ConfigMap)
  | configMapsUpdate (ns : String) (configMap : ConfigMap)
  | deploymentsGet (ns name : String)
  | podsList (ns : String) (labels : List (String × String))
  | podsDelete (ns name : String)
  | podsGet (ns name : String)
deriving DecidableEq, Repr

/-- The clientset over a cluster state `σ`: what each call answers and the
state it leaves. Nothing is assumed of these functions. -/
structure Api (σ : Type) where
  configMapsGet : String → String → σ → Except Error ConfigMap × σ
  configMapsCreate : String → ConfigMap → σ → Option Error × σ
  configMapsUpdate : String → ConfigMap → σ → Option Error × σ
  deploymentsGet : String → String → σ → Except Error Deployment × σ
  podsList : String → List (String × String) → σ → Except Error (List Pod) × σ
  podsDelete : String → String → σ → Option Error × σ
  podsGet : String → String → σ → Except Error Pod × σ

/-- The cluster state together with the calls issued so far, oldest first. -/
structure World (σ : Type) where
  st : σ
  log : List Call

/-- The world after call `c` left the cluster in state `s`. -/
def World.record {σ : Type} (w : World σ) (c : Call) (s : σ) : World σ :=
  { st := s, log := w.log ++ [c] }

/-- The names of the pods of the delete calls of a log, in the order issued. -/
def deletions : List Call → List String
  | [] => []
  | Call.podsDelete _ name :: rest => name :: deletions rest
  | _ :: rest => deletions rest

/-- The readiness polls (get-pod calls) of a log, by pod name, in order. -/
def polls : List Call → List String
  | [] => []
  | Call.podsGet _ name :: rest => name :: polls rest
  | _ :: rest => polls rest

/-- The calls of a log that change a configuration resource. -/
def mutations : List Call → List Call
  | [] => []
  | Call.configMapsCreate ns cm :: rest => Call.configMapsCreate ns cm :: mutations rest
  | Call.configMapsUpdate ns cm :: rest => Call.configMapsUpdate ns cm :: mutations rest
  | _ :: rest => mutations rest

/-- The zero value `&corev1.ConfigMap{}` the typed client hands back with an error. -/
def emptyConfigMap : ConfigMap := { Name := "", Namespace := "", Data := [] }

/-- The zero value `&corev1.Pod{}`. -/
def emptyPod : Pod := { Name := "", Conditions := [] }

/-- `m[key]` on a Go `map[string]string`: the zero value when the key is absent. -/
def mapIndex (m : List (String × String)) (key : String) : String :=
  (m.lookup key).getD ""

/-! ## Config store -/

/-- `decodeConfig(data, C)`; `yamlUnmarshal data C` stands for
`yaml.Unmarshal([]byte(data), &C)` and gives `C` afterwards and the error. -/
def decodeConfig (yamlUnmarshal : String → Config → Config × Option Error)
    (data : String) (C : Config) : Config × Option Error :=
  match yamlUnmarshal data C with
  | (C1, some err) => (C1, some err)
  | (C1, none) => (C1, none)

/-- `getConfigMapTargets(thanosConfigMapName, thanosNamespace, clientset)`. -/
def getConfigMapTargets {σ : Type} (api : Api σ)
    (yamlUnmarshal : String → Config → Config × Option Error)
    (thanosConfigMapName thanosNamespace : String) (w : World σ) :
    (List String × Option Error) × World σ :=
  let r := api.configMapsGet thanosNamespace thanosConfigMapName w.st
  let w1 := w.record (Call.configMapsGet thanosNamespace thanosConfigMapName) r.2
  let decode (configMap : ConfigMap) : (List String × Option Error) × World σ :=
    let data := mapIndex configMap.Data "servicediscovery.yml"
    match decodeConfig yamlUnmarshal data [] with
    | (_, some err) => (([], some (errorsWrap err "Unable to decode into struct")), w1)
    | (configDecoded, none) =>
      match configDecoded with
      | group :: _ => ((group.Targets, none), w1)
      | [] => (([], none), w1)
  match r.1 with
  | Except.error err =>
    if !errorsIsNotFound err then
      (([], some (errorsWrap err "Unable to get the Thanos Query configmap")), w1)
    else decode emptyConfigMap
  | Except.ok configMap => decode configMap

/-- `strings.Join(elems, sep)`. -/
def stringsJoin : List String → String → String
  | [], _ => ""
  | [a], _ => a
  | a :: b :: rest, sep => a ++ sep ++ stringsJoin (b :: rest) sep

/-- The `serviceDiscovery` payload built by `createOrUpdateTargetConfigMap`. -/
def serviceDiscovery (targets : List String) : String :=
  "- targets:\n  - " ++ stringsJoin targets "\n  - "

/-- The `configMap` object built by `createOrUpdateTargetConfigMap`. -/
def targetConfigMap (targets : List String) (thanosConfigMapName thanosNamespace : String) :
    ConfigMap :=
  { Name := thanosConfigMapName, Namespace := thanosNamespace,
    Data := [("servicediscovery.yml", serviceDiscovery targets)] }

/-- `createOrUpdateTargetConfigMap(targets, thanosConfigMapName, thanosNamespace, clientset)`. -/
def createOrUpdateTargetConfigMap {σ : Type} (api : Api σ) (targets : List String)
    (thanosConfigMapName thanosNamespace : String) (w : World σ) : Option Error × World σ :=
  let configMap := targetConfigMap targets thanosConfigMapName thanosNamespace
  let r := api.configMapsGet thanosNamespace thanosConfigMapName w.st
  let w1 := w.record (Call.configMapsGet thanosNamespace thanosConfigMapName) r.2
  let create : Option Error × World σ :=
    let c := api.configMapsCreate thanosNamespace configMap w1.st
    let w2 := w1.record (Call.configMapsCreate thanosNamespace configMap) c.2
    match c.1 with
    | some err => (some err, w2)
    | none => (none, w2)
  let update : Option Error × World σ :=
    let u := api.configMapsUpdate thanosNamespace configMap w1.st
    let w2 := w1.record (Call.configMapsUpdate thanosNamespace configMap) u.2
    match u.1 with
    | some err => (some err, w2)
    | none => (none, w2)
  match r.1 with
  | Except.error err =>
    if !errorsIsNotFound err then (some err, w1)
    else if errorsIsNotFound err then create
    else update
  | Except.ok _ => update

/-! ## Rolling restarter -/

/-- `deletePod(namespace, podName, clientset)`. -/
def deletePod {σ : Type} (api : Api σ) (ns podName : String) (w : World σ) :
    Option Error × World σ :=
  let r := api.podsDelete ns podName w.st
  let w1 := w.record (Call.podsDelete ns podName) r.2
  match r.1 with
  | some err => (some err, w1)
  | none => (none, w1)

/-- `getPodsFromDeployment(namespace, deploymentName, clientset)`; the items
of the pod list, or the error. -/
def getPodsFromDeployment {σ : Type} (api : Api σ) (ns deploymentName : String)
    (w : World σ) : Except Error (List Pod) × World σ :=
  let d := api.deploymentsGet ns deploymentName w.st
  let w1 := w.record (Call.deploymentsGet ns deploymentName) d.2
  match d.1 with
  | Except.error err => (Except.error err, w1)
  | Except.ok deployment =>
    let l := api.podsList ns deployment.Labels w1.st
    (l.1, w1.record (Call.podsList ns deployment.Labels) l.2)

/-- The loop over `pod.Status.Conditions` in `waitForPodRunning`, with the
value of `podReady` so far. -/
def waitForPodRunning.conditions : Bool → List PodCondition → Bool
  | podReady, [] => podReady
  | podReady, condition :: rest =>
    if condition.Status == ConditionFalse then waitForPodRunning.conditions false rest
    else waitForPodRunning.conditions podReady rest

/-- One pass through the body of the `for` loop of `waitForPodRunning` down to
the `select`: `some pod` when the function returns `pod, nil` in this pass,
`none` when the pass reaches the `select`. -/
def waitForPodRunning.poll {σ : Type} (api : Api σ) (ns podName : String) (w : World σ) :
    Option Pod × World σ :=
  let r := api.podsGet ns podName w.st
  let w1 := w.record (Call.podsGet ns podName) r.2
  match r.1 with
  | Except.ok pod =>
    if waitForPodRunning.conditions true pod.Conditions = true then (some pod, w1)
    else (none, w1)
  | Except.error err =>
    if k8serrorsIsNotFound err then (some emptyPod, w1) else (none, w1)

/-- The error `waitForPodRunning` returns when `ctx.Done()` fires. -/
def timedOut : Error := errorsWrap ctxErr "timed out waiting for pod to become ready"

/-- `waitForPodRunning(ctx, namespace, podName, clientset)`; the first argument
is the number of times the `select` can still take the `time.After` branch
before the deadline of `ctx`. -/
def waitForPodRunning {σ : Type} (api : Api σ) (ns podName : String) :
    Nat → World σ → Except Error Pod × World σ
  | 0, w =>
    match waitForPodRunning.poll api ns podName w with
    | (some pod, w1) => (Except.ok pod, w1)
    | (none, w1) => (Except.error timedOut, w1)
  | sleeps + 1, w =>
    match waitForPodRunning.poll api ns podName w with
    | (some pod, w1) => (Except.ok pod, w1)
    | (none, w1) => waitForPodRunning api ns podName sleeps w1

/-- The number of times a wait of `wait` seconds takes the `time.After` branch
of the `select`: the sleep after the `k`-th poll ends after the deadline
unless `5 * k < wait`. -/
def sleepsBefore (wait : Nat) : Nat := (wait - 1) / 5

/-- The inner loop of `rotateQueryPods` over the re-fetched pods, after the
pod named `deleted` was deleted; `wait` is the bound in seconds of
`context.WithTimeout`, set before the first poll of each wait. -/
def rotateQueryPods.await {σ : Type} (api : Api σ) (thanosNamespace deleted : String)
    (wait : Nat) : List Pod → World σ → Option Error × World σ
  | [], w => (none, w)
  | newPod :: rest, w =>
    if newPod.Name != deleted then
      match waitForPodRunning api thanosNamespace newPod.Name (sleepsBefore wait) w with
      | (Except.error err, w1) => (some err, w1)
      | (Except.ok _, w1) => rotateQueryPods.await api thanosNamespace deleted wait rest w1
    else rotateQueryPods.await api thanosNamespace deleted wait rest w

/-- The outer loop of `rotateQueryPods` over the pods of the first lookup. -/
def rotateQueryPods.loop {σ : Type} (api : Api σ)
    (thanosNamespace thanosDeploymentName : String) (wait : Nat) :
    List Pod → World σ → Option Error × World σ
  | [], w => (none, w)
  | pod :: rest, w =>
    match deletePod api thanosNamespace pod.Name w with
    | (some err, w1) => (some err, w1)
    | (none, w1) =>
      match getPodsFromDeployment api thanosNamespace thanosDeploymentName w1 with
      | (Except.error err, w2) => (some err, w2)
      | (Except.ok queryPods, w2) =>
        match rotateQueryPods.await api thanosNamespace pod.Name wait queryPods w2 with
        | (some err, w3) => (some err, w3)
        | (none, w3) =>
          rotateQueryPods.loop api thanosNamespace thanosDeploymentName wait rest w3

/-- `rotateQueryPods(thanosNamespace, thanosDeploymentName, clientset)`. -/
def rotateQueryPods {σ : Type} (api : Api σ) (thanosNamespace thanosDeploymentName : String)
    (w : World σ) : Option Error × World σ :=
  match getPodsFromDeployment api thanosNamespace thanosDeploymentName w with
  | (Except.error err, w1) =>
    if k8serrorsIsNotFound err then (none, w1)
    else if !k8serrorsIsNotFound err then (some err, w1)
    else (none, w1)
  | (Except.ok queryPods, w1) =>
    let wait := 180
    rotateQueryPods.loop api thanosNamespace thanosDeploymentName wait queryPods w1

/-! ## The reconciliation cycle -/

/-- What `thanosStoreDiscovery` reads from outside the cluster: the
environment variables, the outcome of `listAllRecordSets` on the hosted zone,
of `rest.InClusterConfig()` and of `kubernetes.NewForConfig(config)`, and the
YAML decoder. -/
structure Env where
  privateHostedZoneID : String
  thanosNamespace : String
  thanosDeploymentName : String
  thanosConfigMapName : String
  listAllRecordSets : String → Except Error (List ResourceRecordSet)
  inClusterConfig : Option Error
  newForConfig : Option Error
  yamlUnmarshal : String → Config → Config × Option Error

/-- The part of `thanosStoreDiscovery` after `configMapTargets` was read: the
comparison, the write and the rotation. -/
def thanosStoreDiscovery.reconcile {σ : Type} (env : Env) (api : Api σ)
    (configMapTargets route53Targets : List String) (w : World σ) : Option Error × World σ :=
  let configMapUpToDate := checkIfConfigMapUpToDate configMapTargets route53Targets
  if configMapTargets.length < 1 || !configMapUpToDate then
    match createOrUpdateTargetConfigMap api route53Targets env.thanosConfigMapName
        env.thanosNamespace w with
    | (some err, w1) =>
      (some (errorsWrap err "Unable to create or update the Thanos Query configmap"), w1)
    | (none, w1) =>
      match rotateQueryPods api env.thanosNamespace env.thanosDeploymentName w1 with
      | (some err, w2) => (some (errorsWrap err "Unable to rotate Thanos Query pods"), w2)
      | (none, w2) => (none, w2)
  else (none, w)

/-- `thanosStoreDiscovery()`. -/
def thanosStoreDiscovery {σ : Type} (env : Env) (api : Api σ) (w : World σ) :
    Option Error × World σ :=
  match env.listAllRecordSets env.privateHostedZoneID with
  | Except.error err =>
    (some (errorsWrap err "Unable to get the existing Thanos Route53 records"), w)
  | Except.ok records =>
    let thanosRecords := getThanosTargets records
    if thanosRecords.length < 1 then (none, w)
    else
      let route53Targets := addPortToTargets thanosRecords
      match env.inClusterConfig with
      | some err => (some (errorsWrap err "Unable to set k8s access config"), w)
      | none =>
        match env.newForConfig with
        | some err => (some (errorsWrap err "Unable to create k8s clientset"), w)
        | none =>
          match getConfigMapTargets api env.yamlUnmarshal env.thanosConfigMapName
              env.thanosNamespace w with
          | ((configMapTargets, some err), w1) =>
            if !errorsIsNotFound err then
              (some (errorsWrap err "Unable to get existing configmap targets"), w1)
            else thanosStoreDiscovery.reconcile env api configMapTargets route53Targets w1
          | ((configMapTargets, none), w1) =>
            thanosStoreDiscovery.reconcile env api configMapTargets route53Targets w1

/-! ## An in-memory cluster

A cluster without controllers, on which the program can be run: resources are
found by namespace and name, a missing one is answered with a not-found
error, nothing changes between two calls. -/

/-- The resources of the in-memory cluster. -/
structure Cluster where
  configMaps : List ConfigMap
  deployments : List (String × String × Deployment)
  pods : List (String × Pod)
deriving DecidableEq, Repr

/-- The error of a call that names a resource the cluster does not hold. -/
def notFoundError (resource name : String) : Error :=
  { msg := resource ++ " " ++ name ++ " not found", textNotFound := true, statusNotFound := true }

/-- The error of creating a resource the cluster already holds. -/
def alreadyExistsError (resource name : String) : Error :=
  { msg := resource ++ " " ++ name ++ " already exists",
    textNotFound := false, statusNotFound := false }

/-- The configuration resource of that namespace and name, if any. -/
def Cluster.findConfigMap (c : Cluster) (ns name : String) : Option ConfigMap :=
  c.configMaps.find? (fun cm => cm.Namespace == ns && cm.Name == name)

/-- The pod of that namespace and name, if any. -/
def Cluster.findPod (c : Cluster) (ns name : String) : Option Pod :=
  (c.pods.find? (fun p => p.1 == ns && p.2.Name == name)).map (fun p => p.2)

/-- The clientset of the in-memory cluster. -/
def memApi : Api Cluster where
  configMapsGet ns name c :=
    match c.findConfigMap ns name with
    | some cm => (Except.ok cm, c)
    | none => (Except.error (notFoundError "configmaps" name), c)
  configMapsCreate ns cm c :=
    match c.findConfigMap ns cm.Name with
    | some _ => (some (alreadyExistsError "configmaps" cm.Name), c)
    | none => (none, { c with configMaps := c.configMaps ++ [{ cm with Namespace := ns }] })
  configMapsUpdate ns cm c :=
    match c.findConfigMap ns cm.Name with
    | some _ =>
      (none, { c with configMaps := c.configMaps.map (fun x =>
        if x.Namespace == ns && x.Name == cm.Name then { cm with Namespace := ns } else x) })
    | none => (some (notFoundError "configmaps" cm.Name), c)
  deploymentsGet ns name c :=
    match c.deployments.find? (fun d => d.1 == ns && d.2.1 == name) with
    | some d => (Except.ok d.2.2, c)
    | none => (Except.error (notFoundError "deployments.apps" name), c)
  podsList ns _ c := (Except.ok ((c.pods.filter (fun p => p.1 == ns)).map (fun p => p.2)), c)
  podsDelete ns name c :=
    match c.findPod ns name with
    | some _ => (none, { c with pods := c.pods.filter (fun p => !(p.1 == ns && p.2.Name == name)) })
    | none => (some (notFoundError "pods" name), c)
  podsGet ns name c :=
    match c.findPod ns name with
    | some pod => (Except.ok pod, c)
    | none => (Except.error (notFoundError "pods" name), c)

/-- A YAML decoder given by the documents it knows: a known document decodes
to its groups, the empty document leaves `C` as it is, anything else is an
error. -/
def tableUnmarshal (table : List (String × Config)) (data : String) (C : Config) :
    Config × Option Error :=
  match table.lookup data with
  | some groups => (groups, none)
  | none =>
    if data = "" then (C, none)
    else (C, some { msg := "yaml: unmarshal errors", textNotFound := false,
                    statusNotFound := false })

/-! ## The properties in the words of the specification -/

/-- The lookup of a poll is one that ends the wait with success: the pod is
reported not found, or it is returned and none of its status conditions has
status False. -/
def pollSucceeds (r : Except Error Pod) : Prop :=
  match r with
  | Except.error err => k8serrorsIsNotFound err = true
  | Except.ok pod => ∀ c ∈ pod.Conditions, c.Status ≠ ConditionFalse

instance pollSucceeds.decidable (r : Except Error Pod) : Decidable (pollSucceeds r) := by
  cases r <;> (unfold pollSucceeds; infer_instance)

/-- The text `"\n  - " ++ t` for each `t` of the sequence, in order. -/
def targetLines : List String → String
  | [] => ""
  | t :: rest => "\n  - " ++ t ++ targetLines rest

/-- The existence check of a write reported the resource not found. -/
def reportsAbsent (r : Except Error ConfigMap) : Bool :=
  match r with
  | Except.error err => errorsIsNotFound err
  | Except.ok _ => false

/-! ## Clusters in which a resource disappears under the program -/

/-- The in-memory cluster in which every pod is gone right after it was listed. -/
def podsVanishApi : Api Cluster :=
  { memApi with
    podsList := fun ns labels c => ((memApi.podsList ns labels c).1, { c with pods := [] }) }

/-- The in-memory cluster in which the deployments are gone right after a pod
was deleted. -/
def deploymentVanishesApi : Api Cluster :=
  { memApi with
    podsDelete := fun ns name c =>
      ((memApi.podsDelete ns name c).1,
        { (memApi.podsDelete ns name c).2 with deployments := [] }) }

/-- A cluster with the query deployment and two of its pods, both ready. -/
def sampleCluster : Cluster :=
  { configMaps := []
    deployments := [("monitoring", "thanos-query", { Labels := [("app", "thanos-query")] })]
    pods := [("monitoring", { Name := "query-0", Conditions := [⟨"Ready", "True"⟩] }),
             ("monitoring", { Name := "query-1", Conditions := [⟨"Ready", "True"⟩] })] }

/-- A cluster whose state counts the get-pod calls answered so far: the
deployment has the pods `query-0` and `query-1`, every deletion is accepted,
and a pod reports a False condition in the first `late` answers and is ready
from then on. -/
def lateApi (late : Nat) : Api Nat where
  configMapsGet _ name n := (Except.error (notFoundError "configmaps" name), n)
  configMapsCreate _ _ n := (none, n)
  configMapsUpdate _ _ n := (none, n)
  deploymentsGet _ _ n := (Except.ok { Labels := [("app", "thanos-query")] }, n)
  podsList _ _ n :=
    (Except.ok [{ Name := "query-0", Conditions := [] }, { Name := "query-1", Conditions := [] }],
      n)
  podsDelete _ _ n := (none, n)
  podsGet _ name n :=
    (Except.ok { Name := name,
                 Conditions := [⟨"Ready", if n < late then "False" else "True"⟩] }, n + 1)

/-! ## Sample runs -/

/-- The in-memory cluster of `sampleCluster` whose second pod never gets ready. -/
def stuckCluster : Cluster :=
  { sampleCluster with
    pods := [("monitoring", { Name := "query-0", Conditions := [⟨"Ready", "True"⟩] }),
             ("monitoring", { Name := "query-1", Conditions := [⟨"Ready", "False"⟩] })] }

/-- A cluster that holds nothing. -/
def emptyCluster : Cluster := { configMaps := [], deployments := [], pods := [] }

/-- The sample cluster with the targets stored in the configuration resource. -/
def storedCluster (targets : List String) : Cluster :=
  { sampleCluster with
    configMaps := [targetConfigMap targets "thanos-targets" "monitoring"] }

/-- The documents the sample decoder knows. -/
def sampleTable : List (String × Config) :=
  [(serviceDiscovery ["a-grpc.internal.:10901", "b-grpc.internal.:10901"],
      [{ Targets := ["a-grpc.internal.:10901", "b-grpc.internal.:10901"] }]),
   (serviceDiscovery ["b-grpc.internal.:10901", "a-grpc.internal.:10901"],
      [{ Targets := ["b-grpc.internal.:10901", "a-grpc.internal.:10901"] }])]

/-- An environment in which the hosted zone lists `records`. -/
def sampleEnv (records : List ResourceRecordSet) : Env :=
  { privateHostedZoneID := "Z0"
    thanosNamespace := "monitoring"
    thanosDeploymentName := "thanos-query"
    thanosConfigMapName := "thanos-targets"
    listAllRecordSets := fun _ => Except.ok records
    inClusterConfig := none
    newForConfig := none
    yamlUnmarshal := tableUnmarshal sampleTable }

/-- Records of a zone with two Thanos targets. -/
def sampleRecords : List ResourceRecordSet :=
  [{ Name := "a-grpc.internal." }, { Name := "www.internal." }, { Name := "b-grpc.internal." }]

/-- Records of a zone with no Thanos target. -/
def otherRecords : List ResourceRecordSet :=
  [{ Name := "www.internal." }, { Name := "grpc.internal." }]

end ThanosStoreDiscovery

namespace ThanosStoreDiscovery

theorem scan_cons (cur : List String) (i : Nat) (v : String) (rest : List String) :
    checkIfConfigMapUpToDate.scan cur i (v :: rest) =
      (decide (cur[i]? = some v) && checkIfConfigMapUpToDate.scan cur (i + 1) rest) := by
  by_cases h : cur[i]? = some v
  · simp [checkIfConfigMapUpToDate.scan, h]
  · have h2 : ¬ (some v = cur[i]?) := fun e => h e.symm
    simp [checkIfConfigMapUpToDate.scan, h, h2]

theorem scan_eq_true_iff (cur : List String) :
    ∀ (rest : List String) (i : Nat),
      checkIfConfigMapUpToDate.scan cur i rest = true ↔
        ∀ j, j < rest.length → cur[i + j]? = rest[j]? := by
  intro rest
  induction rest with
  | nil => intro i; simp [checkIfConfigMapUpToDate.scan]
  | cons v rest ih =>
    intro i
    rw [scan_cons, Bool.and_eq_true, decide_eq_true_eq, ih (i + 1)]
    constructor
    · rintro ⟨h0, h1⟩ j hj
      cases j with
      | zero => simpa using h0
      | succ j =>
        have := h1 j (by simpa using hj)
        rw [List.getElem?_cons_succ, ← this]
        congr 1
        omega
    · intro h
      refine ⟨by simpa using h 0 (by simp), ?_⟩
      intro j hj
      have := h (j + 1) (by simpa using hj)
      rw [List.getElem?_cons_succ] at this
      rw [← this]
      congr 1
      omega

theorem checkIfConfigMapUpToDate_eq_true_iff (current desired : List String) :
    checkIfConfigMapUpToDate current desired = true ↔
      current.length = desired.length ∧ ∀ i, i < desired.length → current[i]? = desired[i]? := by
  unfold checkIfConfigMapUpToDate
  by_cases hlen : desired.length = current.length
  · have h := scan_eq_true_iff current desired 0
    simp only [Nat.zero_add] at h
    simp [hlen, h]
  · have hlen2 : ¬ current.length = desired.length := fun e => hlen e.symm
    simp [hlen, hlen2]

theorem checkIfConfigMapUpToDate_eq_true_iff_eq (current desired : List String) :
    checkIfConfigMapUpToDate current desired = true ↔ current = desired := by
  rw [checkIfConfigMapUpToDate_eq_true_iff]
  constructor
  · rintro ⟨hlen, h⟩
    apply List.ext_getElem? 
    intro i
    by_cases hi : i < desired.length
    · exact h i hi
    · rw [List.getElem?_eq_none (by omega), List.getElem?_eq_none (by omega)]
  · rintro rfl
    exact ⟨rfl, fun _ _ => rfl⟩

/-- C1: `checkIfConfigMapUpToDate(current, desired)` is true exactly when the
two sequences have the same length and equal elements at every index, that is
when they are the same sequence; a length mismatch gives false, an index at
which the elements differ gives false, and `[b, a]` against `[a, b]` with
`a ≠ b` gives false. -/
theorem checkIfConfigMapUpToDate_positional (current desired : List String) :
    (checkIfConfigMapUpToDate current desired = true ↔
      current.length = desired.length ∧
        ∀ i, i < desired.length → current[i]? = desired[i]?) ∧
    (checkIfConfigMapUpToDate current desired = true ↔ current = desired) ∧
    (current.length ≠ desired.length → checkIfConfigMapUpToDate current desired = false) ∧
    (∀ i, i < current.length → i < desired.length → current[i]? ≠ desired[i]? →
      checkIfConfigMapUpToDate current desired = false) ∧
    (∀ a b : String, a ≠ b → checkIfConfigMapUpToDate [b, a] [a, b] = false) := by
  refine ⟨checkIfConfigMapUpToDate_eq_true_iff current desired,
    checkIfConfigMapUpToDate_eq_true_iff_eq current desired, ?_, ?_, ?_⟩
  · intro hlen
    cases hc : checkIfConfigMapUpToDate current desired with
    | false => rfl
    | true => exact absurd ((checkIfConfigMapUpToDate_eq_true_iff current desired).1 hc).1 hlen
  · intro i _ hi hne
    cases hc : checkIfConfigMapUpToDate current desired with
    | false => rfl
    | true =>
      exact absurd (((checkIfConfigMapUpToDate_eq_true_iff current desired).1 hc).2 i hi) hne
  · intro a b hab
    cases hc : checkIfConfigMapUpToDate [b, a] [a, b] with
    | false => rfl
    | true =>
      have := (checkIfConfigMapUpToDate_eq_true_iff_eq [b, a] [a, b]).1 hc
      simp only [List.cons.injEq] at this
      exact absurd this.1.symm hab

theorem addPortToTargets_loop_eq (acc rs : List String) :
    addPortToTargets.loop acc rs = acc ++ rs.map sprintfPort := by
  induction rs generalizing acc with
  | nil => simp [addPortToTargets.loop]
  | cons r rs ih => simp [addPortToTargets.loop, ih]

theorem addPortToTargets_eq_map (rs : List String) :
    addPortToTargets rs = rs.map sprintfPort := by
  simp [addPortToTargets, addPortToTargets_loop_eq]

/-- C8: `addPortToTargets(rs)` has the length of `rs`, and its element at
every index `i` is the element of `rs` at `i` followed by `":10901"`. -/
theorem addPortToTargets_pointwise (rs : List String) :
    (addPortToTargets rs).length = rs.length ∧
    ∀ (i : Nat) (h : i < rs.length), (addPortToTargets rs)[i]? = some (rs[i] ++ ":10901") := by
  rw [addPortToTargets_eq_map]
  refine ⟨by simp, ?_⟩
  intro i h
  simp [List.getElem?_map, List.getElem?_eq_getElem h, sprintfPort]

/-! ## Logs -/

theorem deletions_append (a b : List Call) :
    deletions (a ++ b) = deletions a ++ deletions b := by
  induction a with
  | nil => rfl
  | cons c a ih => cases c <;> simp [deletions, ih]

theorem polls_append (a b : List Call) : polls (a ++ b) = polls a ++ polls b := by
  induction a with
  | nil => rfl
  | cons c a ih => cases c <;> simp [polls, ih]

theorem mutations_append (a b : List Call) :
    mutations (a ++ b) = mutations a ++ mutations b := by
  induction a with
  | nil => rfl
  | cons c a ih => cases c <;> simp [mutations, ih]

theorem deletePod_log {σ : Type} (api : Api σ) (ns name : String) (w : World σ) :
    (deletePod api ns name w).2.log = w.log ++ [Call.podsDelete ns name] := by
  unfold deletePod
  simp only []
  split <;> rfl

theorem getPodsFromDeployment_log {σ : Type} (api : Api σ) (ns dep : String) (w : World σ) :
    ∃ calls, (getPodsFromDeployment api ns dep w).2.log = w.log ++ calls ∧
      deletions calls = [] ∧ polls calls = [] := by
  unfold getPodsFromDeployment
  simp only []
  split
  · exact ⟨[Call.deploymentsGet ns dep], rfl, rfl, rfl⟩
  · rename_i deployment _
    exact ⟨[Call.deploymentsGet ns dep, Call.podsList ns deployment.Labels],
      by simp [World.record], rfl, rfl⟩

theorem getPodsFromDeployment_deletions {σ : Type} (api : Api σ) (ns dep : String)
    (w : World σ) : deletions (getPodsFromDeployment api ns dep w).2.log = deletions w.log := by
  obtain ⟨calls, h, hd, _⟩ := getPodsFromDeployment_log api ns dep w
  rw [h, deletions_append, hd, List.append_nil]

theorem poll_log {σ : Type} (api : Api σ) (ns name : String) (w : World σ) :
    (waitForPodRunning.poll api ns name w).2.log = w.log ++ [Call.podsGet ns name] := by
  unfold waitForPodRunning.poll
  simp only []
  split <;> split <;> rfl

theorem waitForPodRunning_deletions {σ : Type} (api : Api σ) (ns name : String) :
    ∀ (sleeps : Nat) (w : World σ),
      deletions (waitForPodRunning api ns name sleeps w).2.log = deletions w.log := by
  intro sleeps
  induction sleeps with
  | zero =>
    intro w
    have h := poll_log api ns name w
    unfold waitForPodRunning
    split <;> rename_i heq <;> rw [heq] at h <;> simp at h <;> simp [h, deletions_append, deletions]
  | succ n ih =>
    intro w
    have h := poll_log api ns name w
    unfold waitForPodRunning
    split <;> rename_i heq <;> rw [heq] at h <;> simp at h
    · simp [h, deletions_append, deletions]
    · rw [ih, h]
      simp [deletions_append, deletions]

theorem await_deletions {σ : Type} (api : Api σ) (ns deleted : String) (wait : Nat) :
    ∀ (pods : List Pod) (w : World σ),
      deletions (rotateQueryPods.await api ns deleted wait pods w).2.log = deletions w.log := by
  intro pods
  induction pods with
  | nil => intro w; rfl
  | cons newPod rest ih =>
    intro w
    unfold rotateQueryPods.await
    split
    · have h := waitForPodRunning_deletions api ns newPod.Name (sleepsBefore wait) w
      split <;> rename_i heq <;> rw [heq] at h
      · exact h
      · rw [ih]; exact h
    · exact ih w

/-! ## Rotation -/

theorem loop_cons {σ : Type} (api : Api σ) (ns dep : String) (wait : Nat)
    (pod : Pod) (rest : List Pod) (w : World σ) :
    rotateQueryPods.loop api ns dep wait (pod :: rest) w =
      match deletePod api ns pod.Name w with
      | (some err, w1) => (some err, w1)
      | (none, w1) =>
        match getPodsFromDeployment api ns dep w1 with
        | (Except.error err, w2) => (some err, w2)
        | (Except.ok queryPods, w2) =>
          match rotateQueryPods.await api ns pod.Name wait queryPods w2 with
          | (some err, w3) => (some err, w3)
          | (none, w3) => rotateQueryPods.loop api ns dep wait rest w3 := by
  rw [rotateQueryPods.loop]

theorem loop_cons_deletions {σ : Type} (api : Api σ) (ns dep : String) (wait : Nat)
    (pod : Pod) (rest : List Pod) (w : World σ) :
    (rotateQueryPods.loop api ns dep wait (pod :: rest) w).1 ≠ none ∧
        deletions (rotateQueryPods.loop api ns dep wait (pod :: rest) w).2.log =
          deletions w.log ++ [pod.Name] ∨
      ∃ w3, deletions w3.log = deletions w.log ++ [pod.Name] ∧
        rotateQueryPods.loop api ns dep wait (pod :: rest) w =
          rotateQueryPods.loop api ns dep wait rest w3 := by
  have hd := deletePod_log api ns pod.Name w
  rw [loop_cons]
  split
  · rename_i err w1 heq
    rw [heq] at hd
    simp only at hd
    left
    simp [hd, deletions_append, deletions]
  · rename_i w1 heq
    rw [heq] at hd
    simp only at hd
    have hg := getPodsFromDeployment_deletions api ns dep w1
    split
    · rename_i err w2 heq2
      rw [heq2] at hg
      simp only at hg
      left
      simp [hg, hd, deletions_append, deletions]
    · rename_i queryPods w2 heq2
      rw [heq2] at hg
      simp only at hg
      have ha := await_deletions api ns pod.Name wait queryPods w2
      split
      · rename_i err w3 heq3
        rw [heq3] at ha
        simp only at ha
        left
        simp [ha, hg, hd, deletions_append, deletions]
      · rename_i w3 heq3
        rw [heq3] at ha
        simp only at ha
        right
        exact ⟨w3, by simp [ha, hg, hd, deletions_append, deletions], rfl⟩

theorem loop_deletions {σ : Type} (api : Api σ) (ns dep : String) (wait : Nat) :
    ∀ (items : List Pod) (w : World σ),
      ∃ k, k ≤ items.length ∧
        deletions (rotateQueryPods.loop api ns dep wait items w).2.log =
          deletions w.log ++ (items.map Pod.Name).take k := by
  intro items
  induction items with
  | nil => intro w; exact ⟨0, by simp, by simp [rotateQueryPods.loop]⟩
  | cons pod rest ih =>
    intro w
    rcases loop_cons_deletions api ns dep wait pod rest w with ⟨_, h⟩ | ⟨w3, h3, heq⟩
    · exact ⟨1, by simp, by simpa using h⟩
    · obtain ⟨k, hk, hk2⟩ := ih w3
      refine ⟨k + 1, by simpa using hk, ?_⟩
      rw [heq, hk2, h3]
      simp

theorem loop_deletions_ok {σ : Type} (api : Api σ) (ns dep : String) (wait : Nat) :
    ∀ (items : List Pod) (w : World σ),
      (rotateQueryPods.loop api ns dep wait items w).1 = none →
        deletions (rotateQueryPods.loop api ns dep wait items w).2.log =
          deletions w.log ++ items.map Pod.Name := by
  intro items
  induction items with
  | nil => intro w _; simp [rotateQueryPods.loop]
  | cons pod rest ih =>
    intro w hok
    rcases loop_cons_deletions api ns dep wait pod rest w with ⟨hne, _⟩ | ⟨w3, h3, heq⟩
    · exact absurd hok hne
    · rw [heq] at hok ⊢
      rw [ih w3 hok, h3]
      simp

theorem loop_append {σ : Type} (api : Api σ) (ns dep : String) (wait : Nat) :
    ∀ (pre rest : List Pod) (w wk : World σ),
      rotateQueryPods.loop api ns dep wait pre w = (none, wk) →
        rotateQueryPods.loop api ns dep wait (pre ++ rest) w =
          rotateQueryPods.loop api ns dep wait rest wk := by
  intro pre
  induction pre with
  | nil =>
    intro rest w wk h
    simp only [rotateQueryPods.loop, Prod.mk.injEq, true_and] at h
    subst h
    rfl
  | cons pod pre ih =>
    intro rest w wk h
    rw [List.cons_append, loop_cons]
    rw [loop_cons] at h
    split <;> rename_i heq
    · rw [heq] at h; simp at h
    · rw [heq] at h
      simp only at h ⊢
      split <;> rename_i heq2
      · rw [heq2] at h; simp at h
      · rw [heq2] at h
        simp only at h ⊢
        split <;> rename_i heq3
        · rw [heq3] at h; simp at h
        · rw [heq3] at h
          simp only at h ⊢
          exact ih rest _ wk h

/-- C3: when the first lookup answers a snapshot of pods, whatever the cluster
does afterwards, the deletions issued by `rotateQueryPods` are the names of
the first `k` pods of the snapshot in listing order, for some `k` up to its
size; they are the whole snapshot when the operation returns success; and
when the readiness wait that follows the deletion of the pod at position
`pre.length + 1` fails, the operation returns that error and the deletions
are exactly the pods up to that position. -/
theorem rotateQueryPods_deletions {σ : Type} (api : Api σ) (ns dep : String)
    (w w1 : World σ) (snapshot : List Pod)
    (h : getPodsFromDeployment api ns dep w = (Except.ok snapshot, w1)) :
    (∃ k, k ≤ snapshot.length ∧
      deletions (rotateQueryPods api ns dep w).2.log =
        deletions w.log ++ (snapshot.map Pod.Name).take k) ∧
    ((rotateQueryPods api ns dep w).1 = none →
      deletions (rotateQueryPods api ns dep w).2.log =
        deletions w.log ++ snapshot.map Pod.Name) ∧
    (∀ (pre post : List Pod) (pod : Pod) (wk wd wl ww : World σ) (newPods : List Pod)
        (err : Error),
      snapshot = pre ++ pod :: post →
      rotateQueryPods.loop api ns dep 180 pre w1 = (none, wk) →
      deletePod api ns pod.Name wk = (none, wd) →
      getPodsFromDeployment api ns dep wd = (Except.ok newPods, wl) →
      rotateQueryPods.await api ns pod.Name 180 newPods wl = (some err, ww) →
      rotateQueryPods api ns dep w = (some err, ww) ∧
        deletions ww.log =
          deletions w.log ++ (snapshot.map Pod.Name).take (pre.length + 1)) := by
  have hrot : rotateQueryPods api ns dep w = rotateQueryPods.loop api ns dep 180 snapshot w1 := by
    unfold rotateQueryPods
    rw [h]
  have hw1 : deletions w1.log = deletions w.log := by
    have := getPodsFromDeployment_deletions api ns dep w
    rw [h] at this
    exact this
  refine ⟨?_, ?_, ?_⟩
  · obtain ⟨k, hk, hk2⟩ := loop_deletions api ns dep 180 snapshot w1
    exact ⟨k, hk, by rw [hrot, hk2, hw1]⟩
  · intro hok
    rw [hrot] at hok ⊢
    rw [loop_deletions_ok api ns dep 180 snapshot w1 hok, hw1]
  · intro pre post pod wk wd wl ww newPods err hsnap hpre hdel hget hawait
    have hrun : rotateQueryPods api ns dep w = (some err, ww) := by
      rw [hrot, hsnap, loop_append api ns dep 180 pre (pod :: post) w1 wk hpre, loop_cons]
      rw [hdel]
      simp only
      rw [hget]
      simp only
      rw [hawait]
    refine ⟨hrun, ?_⟩
    have hk := loop_deletions_ok api ns dep 180 pre w1 (by rw [hpre])
    rw [hpre] at hk
    simp only at hk
    have hd := deletePod_log api ns pod.Name wk
    rw [hdel] at hd
    simp only at hd
    have hg := getPodsFromDeployment_deletions api ns dep wd
    rw [hget] at hg
    simp only at hg
    have ha := await_deletions api ns pod.Name 180 newPods wl
    rw [hawait] at ha
    simp only at ha
    rw [ha, hg, hd, deletions_append, hk, hw1, hsnap]
    simp [deletions, List.take_append_eq_append_take]

/-- C9: when the first lookup of `rotateQueryPods` fails, a not-found error
makes the operation return success and any other error is returned as it is;
either way no pod deletion and no readiness poll has been issued. -/
theorem rotateQueryPods_lookup_failed {σ : Type} (api : Api σ) (ns dep : String)
    (w w1 : World σ) (err : Error)
    (h : getPodsFromDeployment api ns dep w = (Except.error err, w1)) :
    (k8serrorsIsNotFound err = true → rotateQueryPods api ns dep w = (none, w1)) ∧
    (k8serrorsIsNotFound err = false → rotateQueryPods api ns dep w = (some err, w1)) ∧
    deletions (rotateQueryPods api ns dep w).2.log = deletions w.log ∧
    polls (rotateQueryPods api ns dep w).2.log = polls w.log := by
  have hlog := getPodsFromDeployment_log api ns dep w
  rw [h] at hlog
  obtain ⟨calls, hc, hd, hp⟩ := hlog
  simp only at hc
  have hrot : (rotateQueryPods api ns dep w).2 = w1 := by
    unfold rotateQueryPods
    rw [h]
    simp only
    cases k8serrorsIsNotFound err <;> simp
  refine ⟨?_, ?_, ?_, ?_⟩
  · intro hnf
    unfold rotateQueryPods
    rw [h]
    simp [hnf]
  · intro hnf
    unfold rotateQueryPods
    rw [h]
    simp [hnf]
  · rw [hrot, hc, deletions_append, hd, List.append_nil]
  · rw [hrot, hc, polls_append, hp, List.append_nil]

/-! ## Readiness wait -/

theorem conditions_eq (ready : Bool) (cs : List PodCondition) :
    waitForPodRunning.conditions ready cs =
      (ready && cs.all (fun c => c.Status != ConditionFalse)) := by
  induction cs generalizing ready with
  | nil => simp [waitForPodRunning.conditions]
  | cons c cs ih =>
    by_cases hc : c.Status = ConditionFalse
    · simp [waitForPodRunning.conditions, hc, ih]
    · have hb : (c.Status != ConditionFalse) = true := by simpa using hc
      simp [waitForPodRunning.conditions, hc, ih, hb]

theorem conditions_true_iff (cs : List PodCondition) :
    waitForPodRunning.conditions true cs = true ↔ ∀ c ∈ cs, c.Status ≠ ConditionFalse := by
  simp [conditions_eq]

theorem poll_isSome_iff {σ : Type} (api : Api σ) (ns name : String) (w : World σ) :
    (waitForPodRunning.poll api ns name w).1.isSome = true ↔
      pollSucceeds (api.podsGet ns name w.st).1 := by
  unfold waitForPodRunning.poll pollSucceeds
  simp only []
  cases hr : (api.podsGet ns name w.st).1 with
  | error err =>
    cases hnf : k8serrorsIsNotFound err <;> simp [hnf]
  | ok pod =>
    simp only []
    rw [← conditions_true_iff]
    by_cases hc : waitForPodRunning.conditions true pod.Conditions = true <;> simp [hc]

theorem waitForPodRunning_of_poll_some {σ : Type} (api : Api σ) (ns name : String)
    (w w1 : World σ) (pod : Pod) (h : waitForPodRunning.poll api ns name w = (some pod, w1))
    (sleeps : Nat) : waitForPodRunning api ns name sleeps w = (Except.ok pod, w1) := by
  cases sleeps <;> (unfold waitForPodRunning; rw [h])

theorem waitForPodRunning_succ_of_poll_none {σ : Type} (api : Api σ) (ns name : String)
    (w w1 : World σ) (h : waitForPodRunning.poll api ns name w = (none, w1)) (sleeps : Nat) :
    waitForPodRunning api ns name (sleeps + 1) w = waitForPodRunning api ns name sleeps w1 := by
  rw [waitForPodRunning, h]

theorem waitForPodRunning_zero_of_poll_none {σ : Type} (api : Api σ) (ns name : String)
    (w w1 : World σ) (h : waitForPodRunning.poll api ns name w = (none, w1)) :
    waitForPodRunning api ns name 0 w = (Except.error timedOut, w1) := by
  rw [waitForPodRunning, h]

theorem waitForPodRunning_error {σ : Type} (api : Api σ) (ns name : String) :
    ∀ (sleeps : Nat) (w w2 : World σ) (err : Error),
      waitForPodRunning api ns name sleeps w = (Except.error err, w2) →
        err = timedOut ∧ polls w2.log = polls w.log ++ List.replicate (sleeps + 1) name := by
  intro sleeps
  induction sleeps with
  | zero =>
    intro w w2 err h
    have hl := poll_log api ns name w
    cases hp : waitForPodRunning.poll api ns name w with
    | mk o w1 =>
      rw [hp] at hl
      cases o with
      | some pod =>
        rw [waitForPodRunning_of_poll_some api ns name w w1 pod hp] at h
        simp at h
      | none =>
        rw [waitForPodRunning_zero_of_poll_none api ns name w w1 hp] at h
        simp only [Prod.mk.injEq, Except.error.injEq] at h
        obtain ⟨h1, h2⟩ := h
        subst h2
        simp only at hl
        exact ⟨h1.symm, by simp [hl, polls_append, polls]⟩
  | succ n ih =>
    intro w w2 err h
    have hl := poll_log api ns name w
    cases hp : waitForPodRunning.poll api ns name w with
    | mk o w1 =>
      rw [hp] at hl
      cases o with
      | some pod =>
        rw [waitForPodRunning_of_poll_some api ns name w w1 pod hp] at h
        simp at h
      | none =>
        rw [waitForPodRunning_succ_of_poll_none api ns name w w1 hp] at h
        obtain ⟨h1, h2⟩ := ih w1 w2 err h
        simp only at hl
        refine ⟨h1, ?_⟩
        rw [h2, hl, polls_append]
        simp [polls, List.replicate_succ]

/-- C4: a poll of `waitForPodRunning` ends the wait with success exactly when
its lookup reports the pod not found or returns a pod none of whose conditions
has status False (so a pod whose conditions are all True or Unknown, or that
has none, is ready); such a poll ends the wait at once whatever time is left,
with the empty pod in the not-found case; after any other poll the wait goes
on to the next poll while time is left and fails with the timeout error when
none is; and the wait fails with no other error than the timeout, after
polling through the whole bound. -/
theorem waitForPodRunning_poll_spec {σ : Type} (api : Api σ) (ns name : String)
    (w : World σ) :
    ((waitForPodRunning.poll api ns name w).1.isSome = true ↔
      pollSucceeds (api.podsGet ns name w.st).1) ∧
    (∀ pod : Pod, (∀ c ∈ pod.Conditions, c.Status = "True" ∨ c.Status = "Unknown") →
      pollSucceeds (Except.ok pod)) ∧
    (∀ (pod : Pod) (w1 : World σ), waitForPodRunning.poll api ns name w = (some pod, w1) →
      ∀ sleeps, waitForPodRunning api ns name sleeps w = (Except.ok pod, w1)) ∧
    (∀ err, (api.podsGet ns name w.st).1 = Except.error err → k8serrorsIsNotFound err = true →
      ∀ sleeps, waitForPodRunning api ns name sleeps w =
        (Except.ok emptyPod, w.record (Call.podsGet ns name) (api.podsGet ns name w.st).2)) ∧
    (∀ w1 : World σ, waitForPodRunning.poll api ns name w = (none, w1) →
      waitForPodRunning api ns name 0 w = (Except.error timedOut, w1) ∧
      ∀ sleeps, waitForPodRunning api ns name (sleeps + 1) w =
        waitForPodRunning api ns name sleeps w1) ∧
    (∀ (sleeps : Nat) (err : Error) (w2 : World σ),
      waitForPodRunning api ns name sleeps w = (Except.error err, w2) →
        err = timedOut ∧ polls w2.log = polls w.log ++ List.replicate (sleeps + 1) name) := by
  refine ⟨poll_isSome_iff api ns name w, ?_, ?_, ?_, ?_, ?_⟩
  · intro pod hall c hc
    rcases hall c hc with h | h <;> rw [h] <;> decide
  · intro pod w1 h sleeps
    exact waitForPodRunning_of_poll_some api ns name w w1 pod h sleeps
  · intro err herr hnf sleeps
    apply waitForPodRunning_of_poll_some
    unfold waitForPodRunning.poll
    simp only []
    rw [herr]
    simp [hnf]
  · intro w1 h
    exact ⟨waitForPodRunning_zero_of_poll_none api ns name w w1 h,
      waitForPodRunning_succ_of_poll_none api ns name w w1 h⟩
  · intro sleeps err w2 h
    exact waitForPodRunning_error api ns name sleeps w w2 err h

/-- The wait on the sample clusters: a ready pod ends it at the first poll, a
pod that is not there ends it at the first poll with the empty pod, and a pod
with a False condition makes it poll 36 times, the polls of a bound of 180
seconds, and fail with the timeout. -/
theorem waitForPodRunning_samples :
    waitForPodRunning memApi "monitoring" "query-1" (sleepsBefore 180) ⟨sampleCluster, []⟩ =
      (Except.ok { Name := "query-1", Conditions := [⟨"Ready", "True"⟩] },
        ⟨sampleCluster, [Call.podsGet "monitoring" "query-1"]⟩) ∧
    waitForPodRunning memApi "monitoring" "query-9" (sleepsBefore 180) ⟨sampleCluster, []⟩ =
      (Except.ok emptyPod, ⟨sampleCluster, [Call.podsGet "monitoring" "query-9"]⟩) ∧
    sleepsBefore 180 = 35 ∧
    (waitForPodRunning memApi "monitoring" "query-1" (sleepsBefore 180)
        ⟨stuckCluster, []⟩).1 =
      Except.error timedOut ∧
    polls (waitForPodRunning memApi "monitoring" "query-1" (sleepsBefore 180)
        ⟨stuckCluster, []⟩).2.log =
      List.replicate 36 "query-1" := by
  refine ⟨?_, ?_, ?_, ?_, ?_⟩ <;> rfl

/-- The rotation at the edge of the bound: a replacement that is ready at the
36th poll of its wait lets the rotation go on to the second pod and succeed
with both pods deleted; one that would be ready only at a 37th poll is never
polled a 37th time, the wait times out after 36 polls and only the first pod
has been deleted. -/
theorem rotateQueryPods_deadline_samples :
    (rotateQueryPods (lateApi 35) "monitoring" "thanos-query" ⟨0, []⟩).1 = none ∧
    deletions (rotateQueryPods (lateApi 35) "monitoring" "thanos-query" ⟨0, []⟩).2.log =
      ["query-0", "query-1"] ∧
    (rotateQueryPods (lateApi 36) "monitoring" "thanos-query" ⟨0, []⟩).1 = some timedOut ∧
    deletions (rotateQueryPods (lateApi 36) "monitoring" "thanos-query" ⟨0, []⟩).2.log =
      ["query-0"] ∧
    polls (rotateQueryPods (lateApi 36) "monitoring" "thanos-query" ⟨0, []⟩).2.log =
      List.replicate 36 "query-1" := by
  refine ⟨?_, ?_, ?_, ?_, ?_⟩ <;> rfl

/-! ## Not-found answers during a rotation -/

/-- C10, evaluated: with the pods gone after they were listed, the only call
that fails is the deletion of the first snapshot pod, it fails with not-found,
and `rotateQueryPods` returns that error; with the deployment gone after the
first deletion, the only call that fails is the lookup of the deployment
before the re-fetch, it fails with not-found, and `rotateQueryPods` returns
that error. -/
theorem rotateQueryPods_not_found_fails :
    rotateQueryPods podsVanishApi "monitoring" "thanos-query" ⟨sampleCluster, []⟩ =
      (some (notFoundError "pods" "query-0"),
        ⟨{ sampleCluster with pods := [] },
          [Call.deploymentsGet "monitoring" "thanos-query",
           Call.podsList "monitoring" [("app", "thanos-query")],
           Call.podsDelete "monitoring" "query-0"]⟩) ∧
    k8serrorsIsNotFound (notFoundError "pods" "query-0") = true ∧
    rotateQueryPods deploymentVanishesApi "monitoring" "thanos-query" ⟨sampleCluster, []⟩ =
      (some (notFoundError "deployments.apps" "thanos-query"),
        ⟨{ sampleCluster with
            deployments := []
            pods := [("monitoring", { Name := "query-1", Conditions := [⟨"Ready", "True"⟩] })] },
          [Call.deploymentsGet "monitoring" "thanos-query",
           Call.podsList "monitoring" [("app", "thanos-query")],
           Call.podsDelete "monitoring" "query-0",
           Call.deploymentsGet "monitoring" "thanos-query"]⟩) ∧
    k8serrorsIsNotFound (notFoundError "deployments.apps" "thanos-query") = true := by
  refine ⟨?_, ?_, ?_, ?_⟩ <;> rfl

/-! ## Writing the configuration resource -/

theorem stringsJoin_cons_lines (t : String) (rest : List String) :
    "\n  - " ++ stringsJoin (t :: rest) "\n  - " = targetLines (t :: rest) := by
  induction rest generalizing t with
  | nil => simp [stringsJoin, targetLines]
  | cons u rest ih =>
    have h := ih u
    rw [targetLines, ← h, stringsJoin]
    simp only [String.append_assoc]

theorem serviceDiscovery_eq_lines (ts : List String) (hts : ts ≠ []) :
    serviceDiscovery ts = "- targets:" ++ targetLines ts := by
  cases ts with
  | nil => exact absurd rfl hts
  | cons t rest =>
    rw [← stringsJoin_cons_lines, ← String.append_assoc]
    rfl

theorem find?_append_of_none {α : Type} (p : α → Bool) (l : List α) (a : α)
    (hnone : l.find? p = none) (ha : p a = true) : (l ++ [a]).find? p = some a := by
  induction l with
  | nil => simp [List.find?, ha]
  | cons x l ih =>
    by_cases hx : p x = true
    · simp [List.find?, hx] at hnone
    · have hx2 : p x = false := by simpa using hx
      have hn : l.find? p = none := by simpa [List.find?, hx2] using hnone
      simp [List.find?, hx2, ih hn]

theorem find?_map_replace {α : Type} (p : α → Bool) (l : List α) (a x : α)
    (hsome : l.find? p = some x) (ha : p a = true) :
    (l.map (fun y => if p y = true then a else y)).find? p = some a := by
  induction l with
  | nil => simp at hsome
  | cons y l ih =>
    by_cases hy : p y = true
    · simp [List.find?, hy, ha]
    · have hy2 : p y = false := by simpa using hy
      have hn : l.find? p = some x := by simpa [List.find?, hy2] using hsome
      simp only [List.map_cons, hy, if_false, Bool.false_eq_true]
      simp only [List.find?, hy2]
      exact ih hn

theorem createOrUpdateTargetConfigMap_mem (ts : List String) (name ns : String)
    (c : Cluster) (log : List Call) :
    (createOrUpdateTargetConfigMap memApi ts name ns ⟨c, log⟩).1 = none ∧
    (createOrUpdateTargetConfigMap memApi ts name ns ⟨c, log⟩).2.st.findConfigMap ns name =
      some (targetConfigMap ts name ns) := by
  have hkey : (fun cm : ConfigMap => cm.Namespace == ns && cm.Name == name)
      (targetConfigMap ts name ns) = true := by
    simp [targetConfigMap]
  cases hfind : c.findConfigMap ns name with
  | none =>
    have hres : createOrUpdateTargetConfigMap memApi ts name ns ⟨c, log⟩ =
        (none, ⟨{ c with configMaps := c.configMaps ++ [targetConfigMap ts name ns] },
          log ++ [Call.configMapsGet ns name] ++
            [Call.configMapsCreate ns (targetConfigMap ts name ns)]⟩) := by
      simp [createOrUpdateTargetConfigMap, memApi, hfind, World.record, notFoundError,
        errorsIsNotFound, targetConfigMap]
    rw [hres]
    exact ⟨rfl, find?_append_of_none _ _ _ hfind hkey⟩
  | some x =>
    have hres : createOrUpdateTargetConfigMap memApi ts name ns ⟨c, log⟩ =
        (none, ⟨{ c with configMaps := c.configMaps.map (fun y =>
            if (y.Namespace == ns && y.Name == name) = true then targetConfigMap ts name ns
            else y) },
          log ++ [Call.configMapsGet ns name] ++
            [Call.configMapsUpdate ns (targetConfigMap ts name ns)]⟩) := by
      simp [createOrUpdateTargetConfigMap, memApi, hfind, World.record, targetConfigMap]
    rw [hres]
    exact ⟨rfl, find?_map_replace _ _ _ x hfind hkey⟩

/-- C7: for a non-empty target sequence, a successful
`createOrUpdateTargetConfigMap` issues the existence check and then exactly
one mutating call, a Create when the check reported not-found and an Update
otherwise, carrying the resource whose only key `servicediscovery.yml` holds
`"- targets:"` followed by `"\n  - " ++ t` for each target in order; and on
the in-memory cluster, whatever it held before, the write succeeds and leaves
exactly that resource under the name. -/
theorem createOrUpdateTargetConfigMap_write {σ : Type} (api : Api σ) (ts : List String)
    (name ns : String) (w w1 : World σ) (hts : ts ≠ [])
    (hok : createOrUpdateTargetConfigMap api ts name ns w = (none, w1)) :
    targetConfigMap ts name ns =
      { Name := name, Namespace := ns,
        Data := [("servicediscovery.yml", "- targets:" ++ targetLines ts)] } ∧
    w1.log = w.log ++ [Call.configMapsGet ns name,
      if reportsAbsent (api.configMapsGet ns name w.st).1 = true
      then Call.configMapsCreate ns (targetConfigMap ts name ns)
      else Call.configMapsUpdate ns (targetConfigMap ts name ns)] ∧
    mutations w1.log = mutations w.log ++
      [if reportsAbsent (api.configMapsGet ns name w.st).1 = true
       then Call.configMapsCreate ns (targetConfigMap ts name ns)
       else Call.configMapsUpdate ns (targetConfigMap ts name ns)] ∧
    (∀ (c : Cluster) (log : List Call),
      (createOrUpdateTargetConfigMap memApi ts name ns ⟨c, log⟩).1 = none ∧
      (createOrUpdateTargetConfigMap memApi ts name ns ⟨c, log⟩).2.st.findConfigMap ns name =
        some { Name := name, Namespace := ns,
               Data := [("servicediscovery.yml", "- targets:" ++ targetLines ts)] }) := by
  have hcm : targetConfigMap ts name ns =
      { Name := name, Namespace := ns,
        Data := [("servicediscovery.yml", "- targets:" ++ targetLines ts)] } := by
    simp [targetConfigMap, serviceDiscovery_eq_lines ts hts]
  have hlog : w1.log = w.log ++ [Call.configMapsGet ns name,
      if reportsAbsent (api.configMapsGet ns name w.st).1 = true
      then Call.configMapsCreate ns (targetConfigMap ts name ns)
      else Call.configMapsUpdate ns (targetConfigMap ts name ns)] := by
    unfold createOrUpdateTargetConfigMap at hok
    simp only [] at hok
    cases hr : (api.configMapsGet ns name w.st).1 with
    | error err =>
      rw [hr] at hok
      cases hnf : errorsIsNotFound err with
      | false => simp [hnf] at hok
      | true =>
        simp only [hnf, Bool.not_true, Bool.false_eq_true, if_false, if_true] at hok
        split at hok
        · simp at hok
        · simp only [Prod.mk.injEq, true_and] at hok
          rw [← hok]
          simp [World.record, reportsAbsent, hnf]
    | ok cm =>
      rw [hr] at hok
      simp only [] at hok
      split at hok
      · simp at hok
      · simp only [Prod.mk.injEq, true_and] at hok
        rw [← hok]
        simp [World.record, reportsAbsent]
  refine ⟨hcm, hlog, ?_, ?_⟩
  · rw [hlog, mutations_append]
    split <;> simp [mutations]
  · intro c log
    rw [← hcm]
    exact createOrUpdateTargetConfigMap_mem ts name ns c log

/-! ## The reconciliation cycle -/

theorem getThanosTargets_loop_eq (acc : List String) (rs : List ResourceRecordSet) :
    getThanosTargets.loop acc rs =
      acc ++ (rs.filter (fun r => stringsContains r.Name "-grpc.")).map (fun r => r.Name) := by
  induction rs generalizing acc with
  | nil => simp [getThanosTargets.loop]
  | cons r rs ih =>
    by_cases hr : stringsContains r.Name "-grpc." = true
    · simp [getThanosTargets.loop, hr, ih]
    · simp [getThanosTargets.loop, hr, ih]

theorem getThanosTargets_eq_filter (rs : List ResourceRecordSet) :
    getThanosTargets rs =
      (rs.filter (fun r => stringsContains r.Name "-grpc.")).map (fun r => r.Name) := by
  simp [getThanosTargets, getThanosTargets_loop_eq]

theorem addPortToTargets_ne_nil (rs : List String) (h : rs ≠ []) : addPortToTargets rs ≠ [] := by
  rw [addPortToTargets_eq_map]
  simpa using h

theorem reconcile_eq {σ : Type} (env : Env) (api : Api σ) (stored desired : List String)
    (w : World σ) (hd : desired ≠ []) :
    thanosStoreDiscovery.reconcile env api stored desired w =
      if stored = desired then (none, w)
      else
        match createOrUpdateTargetConfigMap api desired env.thanosConfigMapName
            env.thanosNamespace w with
        | (some err, w1) =>
          (some (errorsWrap err "Unable to create or update the Thanos Query configmap"), w1)
        | (none, w1) =>
          match rotateQueryPods api env.thanosNamespace env.thanosDeploymentName w1 with
          | (some err, w2) => (some (errorsWrap err "Unable to rotate Thanos Query pods"), w2)
          | (none, w2) => (none, w2) := by
  unfold thanosStoreDiscovery.reconcile
  by_cases heq : stored = desired
  · have hc : checkIfConfigMapUpToDate stored desired = true :=
      (checkIfConfigMapUpToDate_eq_true_iff_eq stored desired).2 heq
    have hlen : decide (stored.length < 1) = false := by
      rw [heq]
      have : 0 < desired.length := List.length_pos.2 hd
      simp only [decide_eq_false_iff_not]
      omega
    rw [if_pos heq, hc, hlen]
    rfl
  · have hc : checkIfConfigMapUpToDate stored desired = false := by
      cases h : checkIfConfigMapUpToDate stored desired with
      | false => rfl
      | true => exact absurd ((checkIfConfigMapUpToDate_eq_true_iff_eq stored desired).1 h) heq
    simp [hc, heq]

theorem thanosStoreDiscovery_after_read {σ : Type} (env : Env) (api : Api σ) (w w1 : World σ)
    (records : List ResourceRecordSet) (stored : List String) (readErr : Option Error)
    (hrec : env.listAllRecordSets env.privateHostedZoneID = Except.ok records)
    (hne : getThanosTargets records ≠ [])
    (hcfg : env.inClusterConfig = none) (hcs : env.newForConfig = none)
    (hread : getConfigMapTargets api env.yamlUnmarshal env.thanosConfigMapName
      env.thanosNamespace w = ((stored, readErr), w1))
    (hnf : ∀ e, readErr = some e → errorsIsNotFound e = true) :
    thanosStoreDiscovery env api w =
      thanosStoreDiscovery.reconcile env api stored
        (addPortToTargets (getThanosTargets records)) w1 := by
  have hlen : ¬ (getThanosTargets records).length < 1 := by
    have : 0 < (getThanosTargets records).length := List.length_pos.2 hne
    omega
  unfold thanosStoreDiscovery
  rw [hrec]
  simp only [hlen, if_false, hcfg, hcs, hread]
  cases readErr with
  | none => rfl
  | some e => simp [hnf e rfl]

/-- C5: when the records listed hold no name containing `"-grpc."`,
`thanosStoreDiscovery` returns success and leaves the world as it was: no
call on the cluster was issued, so no configuration read or write, no pod
deletion and no rotation, and the cluster state is unchanged. -/
theorem thanosStoreDiscovery_no_targets {σ : Type} (env : Env) (api : Api σ) (w : World σ)
    (records : List ResourceRecordSet)
    (hrec : env.listAllRecordSets env.privateHostedZoneID = Except.ok records)
    (hnone : records.filter (fun r => stringsContains r.Name "-grpc.") = []) :
    getThanosTargets records = [] ∧
    thanosStoreDiscovery env api w = (none, w) ∧
    (thanosStoreDiscovery env api w).2.st = w.st ∧
    (thanosStoreDiscovery env api w).2.log = w.log := by
  have hempty : getThanosTargets records = [] := by
    rw [getThanosTargets_eq_filter, hnone]
    rfl
  have hrun : thanosStoreDiscovery env api w = (none, w) := by
    unfold thanosStoreDiscovery
    rw [hrec]
    simp [hempty]
  exact ⟨hempty, hrun, by rw [hrun], by rw [hrun]⟩

/-- C2: with a non-empty list of resolved targets, the cluster access set up
and the stored sequence read (with no error, or with one reported as
not-found), `thanosStoreDiscovery` ends with success right after the read,
with no further call, when the stored sequence is the desired port-suffixed
one; otherwise it runs `createOrUpdateTargetConfigMap` on the desired
sequence, returns its error when it fails, and runs `rotateQueryPods` exactly
when it succeeded. -/
theorem thanosStoreDiscovery_reconciles {σ : Type} (env : Env) (api : Api σ)
    (w w1 : World σ) (records : List ResourceRecordSet) (stored : List String)
    (readErr : Option Error)
    (hrec : env.listAllRecordSets env.privateHostedZoneID = Except.ok records)
    (hne : getThanosTargets records ≠ [])
    (hcfg : env.inClusterConfig = none) (hcs : env.newForConfig = none)
    (hread : getConfigMapTargets api env.yamlUnmarshal env.thanosConfigMapName
      env.thanosNamespace w = ((stored, readErr), w1))
    (hnf : ∀ e, readErr = some e → errorsIsNotFound e = true) :
    (stored = addPortToTargets (getThanosTargets records) →
      thanosStoreDiscovery env api w = (none, w1)) ∧
    (stored ≠ addPortToTargets (getThanosTargets records) →
      thanosStoreDiscovery env api w =
        match createOrUpdateTargetConfigMap api (addPortToTargets (getThanosTargets records))
            env.thanosConfigMapName env.thanosNamespace w1 with
        | (some err, w2) =>
          (some (errorsWrap err "Unable to create or update the Thanos Query configmap"), w2)
        | (none, w2) =>
          match rotateQueryPods api env.thanosNamespace env.thanosDeploymentName w2 with
          | (some err, w3) => (some (errorsWrap err "Unable to rotate Thanos Query pods"), w3)
          | (none, w3) => (none, w3)) := by
  have h := thanosStoreDiscovery_after_read env api w w1 records stored readErr hrec hne hcfg hcs
    hread hnf
  rw [reconcile_eq env api stored _ w1 (addPortToTargets_ne_nil _ hne)] at h
  constructor
  · intro heq
    rw [h, if_pos heq]
  · intro hneq
    rw [h, if_neg hneq]

/-- C6: when the get of the configuration resource reports not-found (and the
YAML decoder reads the empty document as no group), `getConfigMapTargets`
returns the empty sequence and no error after that one call; from there
`thanosStoreDiscovery`, given resolved targets, does not fail on the read but
runs `createOrUpdateTargetConfigMap` on them, and that write, when its own
existence check reports not-found again, issues a Create of the new resource. -/
theorem getConfigMapTargets_absent {σ : Type} (env : Env) (api : Api σ) (w : World σ)
    (err : Error)
    (hget : (api.configMapsGet env.thanosNamespace env.thanosConfigMapName w.st).1 =
      Except.error err)
    (hnf : errorsIsNotFound err = true)
    (hyaml : env.yamlUnmarshal "" [] = ([], none)) :
    getConfigMapTargets api env.yamlUnmarshal env.thanosConfigMapName env.thanosNamespace w =
      (([], none), w.record (Call.configMapsGet env.thanosNamespace env.thanosConfigMapName)
        (api.configMapsGet env.thanosNamespace env.thanosConfigMapName w.st).2) ∧
    (∀ records : List ResourceRecordSet,
      env.listAllRecordSets env.privateHostedZoneID = Except.ok records →
      getThanosTargets records ≠ [] → env.inClusterConfig = none → env.newForConfig = none →
      thanosStoreDiscovery env api w =
        match createOrUpdateTargetConfigMap api (addPortToTargets (getThanosTargets records))
            env.thanosConfigMapName env.thanosNamespace
            (w.record (Call.configMapsGet env.thanosNamespace env.thanosConfigMapName)
              (api.configMapsGet env.thanosNamespace env.thanosConfigMapName w.st).2) with
        | (some e, w2) =>
          (some (errorsWrap e "Unable to create or update the Thanos Query configmap"), w2)
        | (none, w2) =>
          match rotateQueryPods api env.thanosNamespace env.thanosDeploymentName w2 with
          | (some e, w3) => (some (errorsWrap e "Unable to rotate Thanos Query pods"), w3)
          | (none, w3) => (none, w3)) ∧
    (∀ (targets : List String) (w1 : World σ) (err2 : Error),
      (api.configMapsGet env.thanosNamespace env.thanosConfigMapName w1.st).1 =
        Except.error err2 →
      errorsIsNotFound err2 = true →
      (createOrUpdateTargetConfigMap api targets env.thanosConfigMapName env.thanosNamespace
          w1).2.log =
        w1.log ++ [Call.configMapsGet env.thanosNamespace env.thanosConfigMapName,
          Call.configMapsCreate env.thanosNamespace
            (targetConfigMap targets env.thanosConfigMapName env.thanosNamespace)]) := by
  have hread : getConfigMapTargets api env.yamlUnmarshal env.thanosConfigMapName
      env.thanosNamespace w =
      (([], none), w.record (Call.configMapsGet env.thanosNamespace env.thanosConfigMapName)
        (api.configMapsGet env.thanosNamespace env.thanosConfigMapName w.st).2) := by
    unfold getConfigMapTargets
    simp only []
    rw [hget]
    simp [hnf, emptyConfigMap, mapIndex, decodeConfig, hyaml]
  refine ⟨hread, ?_, ?_⟩
  · intro records hrec hne hcfg hcs
    have h := thanosStoreDiscovery_after_read env api w _ records [] none hrec hne hcfg hcs
      hread (by intro e he; cases he)
    rw [reconcile_eq env api [] _ _ (addPortToTargets_ne_nil _ hne)] at h
    rw [h, if_neg (fun e => addPortToTargets_ne_nil _ hne e.symm)]
  · intro targets w1 err2 hget2 hnf2
    unfold createOrUpdateTargetConfigMap
    simp only []
    rw [hget2]
    simp only [hnf2, Bool.not_true, Bool.false_eq_true, if_false, if_true]
    split <;> simp [World.record]

/-! ## The theorems at sample runs -/

/-- C5 at a zone whose records name no Thanos target, on the sample cluster. -/
theorem thanosStoreDiscovery_no_targets_witness :
    (sampleEnv otherRecords).listAllRecordSets (sampleEnv otherRecords).privateHostedZoneID =
      Except.ok otherRecords ∧
    otherRecords.filter (fun r => stringsContains r.Name "-grpc.") = [] ∧
    thanosStoreDiscovery (sampleEnv otherRecords) memApi ⟨sampleCluster, []⟩ =
      (none, ⟨sampleCluster, []⟩) :=
  ⟨rfl, by decide,
    (thanosStoreDiscovery_no_targets (sampleEnv otherRecords) memApi ⟨sampleCluster, []⟩
      otherRecords rfl (by decide)).2.1⟩

/-- C9 at a cluster that holds no deployment. -/
theorem rotateQueryPods_lookup_failed_witness :
    getPodsFromDeployment memApi "monitoring" "thanos-query" ⟨emptyCluster, []⟩ =
      (Except.error (notFoundError "deployments.apps" "thanos-query"),
        ⟨emptyCluster, [Call.deploymentsGet "monitoring" "thanos-query"]⟩) ∧
    rotateQueryPods memApi "monitoring" "thanos-query" ⟨emptyCluster, []⟩ =
      (none, ⟨emptyCluster, [Call.deploymentsGet "monitoring" "thanos-query"]⟩) :=
  ⟨rfl,
    (rotateQueryPods_lookup_failed memApi "monitoring" "thanos-query" ⟨emptyCluster, []⟩
      ⟨emptyCluster, [Call.deploymentsGet "monitoring" "thanos-query"]⟩
      (notFoundError "deployments.apps" "thanos-query") rfl).1 rfl⟩

/-- C3 at a cluster whose second pod never gets ready: the wait after the first
deletion times out after its 36 polls and only the first pod has been deleted. -/
theorem rotateQueryPods_deletions_witness :
    getPodsFromDeployment memApi "monitoring" "thanos-query" ⟨stuckCluster, []⟩ =
      (Except.ok [{ Name := "query-0", Conditions := [⟨"Ready", "True"⟩] },
                  { Name := "query-1", Conditions := [⟨"Ready", "False"⟩] }],
        ⟨stuckCluster, [Call.deploymentsGet "monitoring" "thanos-query",
          Call.podsList "monitoring" [("app", "thanos-query")]]⟩) ∧
    (rotateQueryPods memApi "monitoring" "thanos-query" ⟨stuckCluster, []⟩).1 = some timedOut ∧
    deletions (rotateQueryPods memApi "monitoring" "thanos-query" ⟨stuckCluster, []⟩).2.log =
      ["query-0"] ∧
    polls (rotateQueryPods memApi "monitoring" "thanos-query" ⟨stuckCluster, []⟩).2.log =
      List.replicate 36 "query-1" := by
  have h := (rotateQueryPods_deletions memApi "monitoring" "thanos-query" ⟨stuckCluster, []⟩
    ⟨stuckCluster, [Call.deploymentsGet "monitoring" "thanos-query",
      Call.podsList "monitoring" [("app", "thanos-query")]]⟩
    [{ Name := "query-0", Conditions := [⟨"Ready", "True"⟩] },
     { Name := "query-1", Conditions := [⟨"Ready", "False"⟩] }] rfl).2.2
    [] [{ Name := "query-1", Conditions := [⟨"Ready", "False"⟩] }]
    { Name := "query-0", Conditions := [⟨"Ready", "True"⟩] }
    _ _ _ _ _ timedOut rfl rfl rfl rfl rfl
  exact ⟨rfl, by rw [h.1], by rw [h.1]; exact h.2, rfl⟩

/-- C7 at one target written to a cluster that holds no configuration resource. -/
theorem createOrUpdateTargetConfigMap_write_witness :
    ["a-grpc.internal.:10901"] ≠ [] ∧
    createOrUpdateTargetConfigMap memApi ["a-grpc.internal.:10901"] "thanos-targets"
        "monitoring" ⟨sampleCluster, []⟩ =
      (none, ⟨storedCluster ["a-grpc.internal.:10901"],
        [Call.configMapsGet "monitoring" "thanos-targets",
         Call.configMapsCreate "monitoring"
           (targetConfigMap ["a-grpc.internal.:10901"] "thanos-targets" "monitoring")]⟩) ∧
    targetConfigMap ["a-grpc.internal.:10901"] "thanos-targets" "monitoring" =
      { Name := "thanos-targets", Namespace := "monitoring",
        Data := [("servicediscovery.yml", "- targets:\n  - a-grpc.internal.:10901")] } ∧
    mutations [Call.configMapsGet "monitoring" "thanos-targets",
        Call.configMapsCreate "monitoring"
          (targetConfigMap ["a-grpc.internal.:10901"] "thanos-targets" "monitoring")] =
      [Call.configMapsCreate "monitoring"
        (targetConfigMap ["a-grpc.internal.:10901"] "thanos-targets" "monitoring")] :=
  ⟨by decide, rfl,
    (createOrUpdateTargetConfigMap_write memApi ["a-grpc.internal.:10901"] "thanos-targets"
      "monitoring" ⟨sampleCluster, []⟩ _ (by decide) rfl).1,
    (createOrUpdateTargetConfigMap_write memApi ["a-grpc.internal.:10901"] "thanos-targets"
      "monitoring" ⟨sampleCluster, []⟩ _ (by decide) rfl).2.2.1⟩

/-- C2 at desired `[a, b]` with stored `[a, b]`, where the run ends after the
read, and with stored `[b, a]`, where it updates the resource and rotates both
pods. -/
theorem thanosStoreDiscovery_reconciles_witness :
    getConfigMapTargets memApi (sampleEnv sampleRecords).yamlUnmarshal "thanos-targets"
        "monitoring"
        ⟨storedCluster ["a-grpc.internal.:10901", "b-grpc.internal.:10901"], []⟩ =
      ((["a-grpc.internal.:10901", "b-grpc.internal.:10901"], none),
        ⟨storedCluster ["a-grpc.internal.:10901", "b-grpc.internal.:10901"],
          [Call.configMapsGet "monitoring" "thanos-targets"]⟩) ∧
    thanosStoreDiscovery (sampleEnv sampleRecords) memApi
        ⟨storedCluster ["a-grpc.internal.:10901", "b-grpc.internal.:10901"], []⟩ =
      (none, ⟨storedCluster ["a-grpc.internal.:10901", "b-grpc.internal.:10901"],
        [Call.configMapsGet "monitoring" "thanos-targets"]⟩) ∧
    getConfigMapTargets memApi (sampleEnv sampleRecords).yamlUnmarshal "thanos-targets"
        "monitoring"
        ⟨storedCluster ["b-grpc.internal.:10901", "a-grpc.internal.:10901"], []⟩ =
      ((["b-grpc.internal.:10901", "a-grpc.internal.:10901"], none),
        ⟨storedCluster ["b-grpc.internal.:10901", "a-grpc.internal.:10901"],
          [Call.configMapsGet "monitoring" "thanos-targets"]⟩) ∧
    (thanosStoreDiscovery (sampleEnv sampleRecords) memApi
        ⟨storedCluster ["b-grpc.internal.:10901", "a-grpc.internal.:10901"], []⟩).1 = none ∧
    mutations (thanosStoreDiscovery (sampleEnv sampleRecords) memApi
        ⟨storedCluster ["b-grpc.internal.:10901", "a-grpc.internal.:10901"], []⟩).2.log =
      [Call.configMapsUpdate "monitoring"
        (targetConfigMap ["a-grpc.internal.:10901", "b-grpc.internal.:10901"]
          "thanos-targets" "monitoring")] ∧
    deletions (thanosStoreDiscovery (sampleEnv sampleRecords) memApi
        ⟨storedCluster ["b-grpc.internal.:10901", "a-grpc.internal.:10901"], []⟩).2.log =
      ["query-0", "query-1"] := by
  have hA := (thanosStoreDiscovery_reconciles (sampleEnv sampleRecords) memApi
    ⟨storedCluster ["a-grpc.internal.:10901", "b-grpc.internal.:10901"], []⟩
    ⟨storedCluster ["a-grpc.internal.:10901", "b-grpc.internal.:10901"],
      [Call.configMapsGet "monitoring" "thanos-targets"]⟩
    sampleRecords ["a-grpc.internal.:10901", "b-grpc.internal.:10901"] none
    rfl (by decide) rfl rfl rfl (by intro e he; cases he)).1 (by decide)
  have hB := (thanosStoreDiscovery_reconciles (sampleEnv sampleRecords) memApi
    ⟨storedCluster ["b-grpc.internal.:10901", "a-grpc.internal.:10901"], []⟩
    ⟨storedCluster ["b-grpc.internal.:10901", "a-grpc.internal.:10901"],
      [Call.configMapsGet "monitoring" "thanos-targets"]⟩
    sampleRecords ["b-grpc.internal.:10901", "a-grpc.internal.:10901"] none
    rfl (by decide) rfl rfl rfl (by intro e he; cases he)).2 (by decide)
  refine ⟨rfl, hA, rfl, ?_, ?_, ?_⟩ <;> rw [hB] <;> rfl

/-- C6 at a cluster that holds no configuration resource: the read gives the
empty sequence and the run creates the resource. -/
theorem getConfigMapTargets_absent_witness :
    (memApi.configMapsGet "monitoring" "thanos-targets" sampleCluster).1 =
      Except.error (notFoundError "configmaps" "thanos-targets") ∧
    errorsIsNotFound (notFoundError "configmaps" "thanos-targets") = true ∧
    (sampleEnv sampleRecords).yamlUnmarshal "" [] = ([], none) ∧
    getConfigMapTargets memApi (sampleEnv sampleRecords).yamlUnmarshal "thanos-targets"
        "monitoring" ⟨sampleCluster, []⟩ =
      (([], none), ⟨sampleCluster, [Call.configMapsGet "monitoring" "thanos-targets"]⟩) ∧
    (thanosStoreDiscovery (sampleEnv sampleRecords) memApi ⟨sampleCluster, []⟩).1 = none ∧
    mutations (thanosStoreDiscovery (sampleEnv sampleRecords) memApi
        ⟨sampleCluster, []⟩).2.log =
      [Call.configMapsCreate "monitoring"
        (targetConfigMap ["a-grpc.internal.:10901", "b-grpc.internal.:10901"]
          "thanos-targets" "monitoring")] := by
  have h := getConfigMapTargets_absent (sampleEnv sampleRecords) memApi ⟨sampleCluster, []⟩
    (notFoundError "configmaps" "thanos-targets") rfl rfl rfl
  have hrun := h.2.1 sampleRecords rfl (by decide) rfl rfl
  refine ⟨rfl, rfl, rfl, h.1, ?_, ?_⟩ <;> rw [hrun] <;> rfl


end ThanosStoreDiscovery
